import Mathlib

/-! # The rumor counting protocol of `simul/gossip_simul/count.go`

A shallow embedding of `ProtocolRum`: its constructor `NewRumorSim`, the
operations `Start`, `Dispatch`, `SendMyRumor`, `SetTimeout` and `Timeout`,
and the properties of a counting run that follow from them.

Embedding choices.

* `time.Duration` is an `int64` count of nanoseconds; it is an `Int` here.
  The program does no arithmetic on durations besides the constant
  `5 * time.Second`.
* A Go channel is the list of the values waiting in its buffer, next to its
  capacity and to whether it was closed. A send on a closed channel panics;
  a send on a full channel without reader blocks.
* The embedded `*onet.TreeNodeInstance` is the record `TreeNodeInstance`;
  what its methods answer (`Tree`, `IsRoot`, `RegisterChannelsLength`,
  `SendRumor`) are fields of that record, since their code belongs to the
  overlay and not to this file.
* `Dispatch` runs concurrently with the overlay, which delivers messages
  into the registered channel, and with other actors, which call
  `SetTimeout` or close `Quit`. That environment is a list of timed
  actions; an action takes effect during the wait whose timer is still
  running at its time.
* The calls a run makes (to the spreader, to the logger, to `Done`, the
  timers it arms, the sends on `Count`) are collected in order in
  `Run.effects`.
* The loop of `Dispatch` need not terminate, so it takes fuel: one unit per
  iteration.
-/

namespace GossipSimul

/-- The type `time.Duration`, in nanoseconds. -/
abbrev Duration := Int

/-- The constant `time.Second`. -/
def Second : Duration := 1000000000

/-- The constant `time.Millisecond`. -/
def Millisecond : Duration := 1000000

/-- An `onet.TreeNode`: an identity and the children below it. -/
inductive TreeNode where
  | mk (id : Nat) (children : List TreeNode)
  deriving Repr

mutual
/-- The identities of a node and of all its descendants. -/
def TreeNode.ids : TreeNode → List Nat
  | .mk id cs => id :: TreeNode.idsOfAll cs
/-- The identities of all nodes of a list of subtrees. -/
def TreeNode.idsOfAll : List TreeNode → List Nat
  | [] => []
  | c :: cs => c.ids ++ TreeNode.idsOfAll cs
end

/-- An `onet.Tree`, given by its root node. -/
structure Tree where
  Root : TreeNode
  deriving Repr

/-- The method `Tree.List`: all nodes of the tree. -/
def Tree.List (t : Tree) : List Nat := t.Root.ids

/-- The number of nodes of the tree besides its root. -/
def Tree.nonRootNodes (t : Tree) : Nat := t.List.length - 1

/-- The message `RumCount`; `Children` is an `int32`. -/
structure RumCount where
  Children : Int
  deriving DecidableEq, Repr

/-- The wrapper `CountMsg`: the sending node and its `RumCount`. -/
structure CountMsg where
  TreeNode : Nat
  msg : RumCount
  deriving DecidableEq, Repr

/-- The embedded `*onet.TreeNodeInstance`, by what its methods answer. -/
structure TreeNodeInstance where
  /-- The answer of `Tree()`; `none` is the nil tree. -/
  tree : Option Tree
  /-- The answer of `IsRoot()`. -/
  isRoot : Bool
  /-- The error of `RegisterChannelsLength`, `none` for nil. -/
  registerErr : Option String
  /-- The error of `SendRumor`, `none` for nil. -/
  sendRumorErr : Option String
  deriving Repr

/-- A buffered Go channel: its capacity, the values waiting in it, oldest
first, and whether it was closed. -/
structure Chan (α : Type) where
  cap : Nat
  buf : List α
  closed : Bool
  deriving Repr

/-- The result of `make(chan α, cap)`. -/
def Chan.make {α : Type} (cap : Nat) : Chan α := ⟨cap, [], false⟩

/-- What a send on a channel without waiting reader comes to. -/
inductive Sent (α : Type) where
  /-- The value is in the buffer of the channel, which is now this one. -/
  | ok (c : Chan α)
  /-- The buffer is full: the sender blocks. -/
  | full
  /-- The channel is closed: the sender panics. -/
  | closed
  deriving Repr

/-- The statement `c <- v`: a panic on a closed channel, else the value is
appended to the buffer when there is room, else the sender blocks. -/
def Chan.send {α : Type} (c : Chan α) (v : α) : Sent α :=
  if c.closed then .closed
  else if c.buf.length < c.cap then .ok { c with buf := c.buf ++ [v] }
  else .full

/-- The struct `ProtocolRum`. The channels `PrepareCountChan` and
`NodeIsUpChan` are never made nor registered: they stay nil, which is
`none`, like `CountChan` before its registration. -/
structure ProtocolRum where
  node : TreeNodeInstance
  Replies : Int
  Count : Chan Int
  Quit : Chan Bool
  timeout : Duration
  PrepareCountChan : Option (Chan Unit)
  CountChan : Option (Chan (List CountMsg))
  NodeIsUpChan : Option (Chan Unit)
  deriving Repr

/-- The function `NewRumorSim`: the instance, or the error of a nil tree. The
error of the registration is logged only. -/
def NewRumorSim (n : TreeNodeInstance) : Except String ProtocolRum :=
  let p : ProtocolRum :=
    { node := n
      Replies := 0
      Count := Chan.make 0
      Quit := Chan.make 0
      timeout := 5 * Second
      PrepareCountChan := none
      CountChan := none
      NodeIsUpChan := none }
  let p := { p with Count := Chan.make 1 }
  match n.tree with
  | none => .error "cannot find tree"
  | some t =>
    match n.registerErr with
    | some _ => .ok p
    | none => .ok { p with CountChan := some (Chan.make t.List.length) }

/-- The method `SetTimeout`. -/
def SetTimeout (p : ProtocolRum) (t : Duration) : ProtocolRum :=
  { p with timeout := t }

/-- The method `Timeout`. -/
def Timeout (p : ProtocolRum) : Duration := p.timeout

/-- What a run does that is visible outside the instance, in order. -/
inductive Effect where
  /-- A call of the logger at the given level. -/
  | log (level : Nat) (text : String)
  /-- A call `SendRumor(fanout, msg)` of the spreader. -/
  | sendRumor (fanout : Int) (msg : RumCount)
  /-- A timer `time.After(d)` armed by the loop and waited for until it fires. -/
  | wait (d : Duration)
  /-- A send `Count <- v`. -/
  | writeCount (v : Int)
  /-- The call `Done()`. -/
  | done
  deriving DecidableEq, Repr

/-- A run of a method on an instance: the instance, the clock and the
effects so far. -/
structure Run where
  p : ProtocolRum
  now : Int
  effects : List Effect
  deriving Repr

/-- The run extended by one effect. -/
def Run.emit (r : Run) (e : Effect) : Run :=
  { r with effects := r.effects ++ [e] }

/-- What happens to an instance from outside while `Dispatch` waits. -/
inductive EnvAction where
  /-- The overlay delivers the reports of children into `CountChan`. -/
  | deliver (msgs : List CountMsg)
  /-- Another actor calls `SetTimeout(d)`. -/
  | setTimeout (d : Duration)
  /-- Another actor closes the channel `Quit`. -/
  | closeQuit
  deriving Repr

/-- An action of the environment and the time it happens. -/
structure Timed where
  time : Int
  act : EnvAction
  deriving Repr

/-- The overlay's delivery into `CountChan`: the batch is buffered when the
channel is registered, open and has room, else the send is the overlay's
affair and the instance is as before. No field besides `CountChan` changes. -/
def deliverCount (p : ProtocolRum) (msgs : List CountMsg) : ProtocolRum :=
  match p.CountChan with
  | none => p
  | some c =>
    match c.send msgs with
    | .ok c2 => { p with CountChan := some c2 }
    | .full => p
    | .closed => p

/-- The effect of one action of the environment on the instance. -/
def applyEnv (p : ProtocolRum) (a : Timed) : ProtocolRum :=
  match a.act with
  | .deliver msgs => deliverCount p msgs
  | .setTimeout d => SetTimeout p d
  | .closeQuit => { p with Quit := { p.Quit with closed := true } }

/-- The method `Start`: it logs and returns nil; the call of `FuncPC` is
commented out in the source. The second component is the returned error. -/
def Start (r : Run) : Run × Option String :=
  let r := r.emit (.log 3 "Starting to count")
  (r, none)

/-- The method `SendMyRumor`: on the root, `SendRumor(2, RumCount 1)`, whose
error is logged. -/
def SendMyRumor (r : Run) : Run :=
  if r.p.node.isRoot then
    let r := r.emit (.sendRumor 2 { Children := 1 })
    match r.p.node.sendRumorErr with
    | some _ => r.emit (.log 2 "couldn't start rumor")
    | none => r
  else r

/-- How a call of `Dispatch` stands after the iterations the fuel allows. -/
inductive Outcome where
  /-- The call returned, with this error (`none` is nil). -/
  | returned (r : Run) (err : Option String)
  /-- The call is blocked for ever in `Count <- Replies` on a full channel. -/
  | blocked (r : Run)
  /-- The call panicked in `Count <- Replies` on a closed channel. -/
  | panicked (r : Run)
  /-- The loop is still running (`running = true`) after all the fuel. -/
  | looping (r : Run)
  deriving Repr

/-- The loop `for running` of `Dispatch`. An iteration logs, arms a timer of
`Timeout()` (a timer of a negative duration fires at once) and blocks in a
`select` whose only case is that timer; meanwhile the environment acts. When
the timer fires, the root sends `Replies` on `Count` and leaves the loop;
every other node starts the next iteration. -/
def dispatchLoop : Nat → Run → List Timed → Outcome
  | 0, r, _ => .looping r
  | fuel + 1, r, env =>
    let r := r.emit (.log 3 "waiting for message for")
    let d := Timeout r.p
    let deadline := r.now + max d 0
    let during := env.filter (fun a => decide (a.time < deadline))
    let later := env.filter (fun a => !decide (a.time < deadline))
    let r := { r with p := during.foldl applyEnv r.p, now := deadline }
    let r := r.emit (.wait d)
    let r := r.emit (.log 3 "timed out while waiting for")
    if r.p.node.isRoot then
      let r := r.emit (.log 2 "Didn't get all children in time:")
      match r.p.Count.send r.p.Replies with
      | .closed => .panicked r
      | .full => .blocked r
      | .ok c => .returned ({ r with p := { r.p with Count := c } }.emit (.writeCount r.p.Replies)) none
    else dispatchLoop fuel r later

/-- The method `Dispatch`, started at time `t0`: `SendMyRumor`, the loop,
`Done`, and the nil error. -/
def Dispatch (fuel : Nat) (p : ProtocolRum) (t0 : Int) (env : List Timed) : Outcome :=
  let r : Run := { p := p, now := t0, effects := [] }
  let r := SendMyRumor r
  match dispatchLoop fuel r env with
  | .returned r _ => .returned (r.emit .done) none
  | o => o

/-- The timers a run armed, in order. -/
def waits : List Effect → List Duration
  | [] => []
  | .wait d :: es => d :: waits es
  | _ :: es => waits es

/-- The values a run sent on `Count`, in order. -/
def countWrites : List Effect → List Int
  | [] => []
  | .writeCount v :: es => v :: countWrites es
  | _ :: es => countWrites es

/-- The calls of the spreader a run made, in order. -/
def rumorsSent : List Effect → List (Int × RumCount)
  | [] => []
  | .sendRumor f m :: es => (f, m) :: rumorsSent es
  | _ :: es => rumorsSent es

/-- Whether an action of the environment is a call of `SetTimeout`. -/
def Timed.setsTimeout (a : Timed) : Bool :=
  match a.act with
  | .setTimeout _ => true
  | _ => false

/-- The actions of the environment that happen during the wait of the
iteration that starts in `r`: those before its timer fires. -/
def duringWait (r : Run) (env : List Timed) : List Timed :=
  env.filter (fun a => decide (a.time < r.now + max (Timeout r.p) 0))

/-- The actions of the environment that are left after that wait. -/
def afterWait (r : Run) (env : List Timed) : List Timed :=
  env.filter (fun a => !decide (a.time < r.now + max (Timeout r.p) 0))

/-- The run of the iteration that starts in `r`, at the moment its timer
fires: the lines of the loop of `Dispatch` down to the test of `IsRoot`. -/
def awaitTimer (r : Run) (env : List Timed) : Run :=
  { p := (duringWait r env).foldl applyEnv r.p
    now := r.now + max (Timeout r.p) 0
    effects := r.effects ++ [.log 3 "waiting for message for", .wait (Timeout r.p),
      .log 3 "timed out while waiting for"] }

/-- The tree root->(A, B), A->(C), with root 0, A 1, B 2 and C 3. -/
def exampleTree : Tree := ⟨.mk 0 [.mk 1 [.mk 3 []], .mk 2 []]⟩

/-- The root's overlay handle on `exampleTree`, all calls succeeding. -/
def exampleRoot : TreeNodeInstance :=
  { tree := some exampleTree, isRoot := true, registerErr := none, sendRumorErr := none }

/-- The instance `NewRumorSim` builds on `exampleRoot`. -/
def exampleInstance : ProtocolRum :=
  { node := exampleRoot
    Replies := 0
    Count := Chan.make 1
    Quit := Chan.make 0
    timeout := 5 * Second
    PrepareCountChan := none
    CountChan := some (Chan.make 4)
    NodeIsUpChan := none }

/-- The overlay handle of node C of `exampleTree`, all calls succeeding. -/
def exampleLeaf : TreeNodeInstance :=
  { tree := some exampleTree, isRoot := false, registerErr := none, sendRumorErr := none }

/-- The instance `NewRumorSim` builds on `exampleLeaf`. -/
def exampleLeafInstance : ProtocolRum :=
  { exampleInstance with node := exampleLeaf }

/-- The root's overlay handle on a tree of the root alone. -/
def loneRoot : TreeNodeInstance :=
  { tree := some ⟨.mk 0 []⟩, isRoot := true, registerErr := none, sendRumorErr := none }

/-- The root's overlay handle on `exampleTree` when the spreader fails. -/
def failingRoot : TreeNodeInstance :=
  { exampleRoot with sendRumorErr := some "send failed" }

/-- An overlay handle without tree. -/
def treelessNode : TreeNodeInstance :=
  { tree := none, isRoot := true, registerErr := none, sendRumorErr := none }

/-- The reports of A, B and C of `exampleTree`, delivered to the root 10, 10
and 12 milliseconds after the start. -/
def exampleReports : List Timed :=
  [ ⟨10 * Millisecond, .deliver [⟨1, ⟨1⟩⟩]⟩,
    ⟨10 * Millisecond, .deliver [⟨2, ⟨1⟩⟩]⟩,
    ⟨12 * Millisecond, .deliver [⟨3, ⟨1⟩⟩]⟩ ]

/-- A report delivered to the root every second, from second 1 to second 9. -/
def steadyReports : List Timed :=
  (List.range 9).map (fun i => ⟨((i : Int) + 1) * Second, .deliver [⟨1, ⟨1⟩⟩]⟩)

/-- An environment with a delivery after half a second, the call
`SetTimeout` of 2 seconds after one second, the closing of `Quit` after three
seconds and the call `SetTimeout` of 9 seconds after six seconds. -/
def busyEnv : List Timed :=
  [ ⟨500 * Millisecond, .deliver [⟨3, ⟨1⟩⟩]⟩,
    ⟨1 * Second, .setTimeout (2 * Second)⟩,
    ⟨3 * Second, .closeQuit⟩,
    ⟨6 * Second, .setTimeout (9 * Second)⟩ ]

/-! ## Frame lemmas -/

theorem deliverCount_frame (p : ProtocolRum) (msgs : List CountMsg) :
    (deliverCount p msgs).node = p.node ∧ (deliverCount p msgs).Replies = p.Replies ∧
    (deliverCount p msgs).Count = p.Count ∧ (deliverCount p msgs).timeout = p.timeout := by
  unfold deliverCount
  split
  · simp
  · split <;> simp

theorem applyEnv_frame (p : ProtocolRum) (a : Timed) :
    (applyEnv p a).node = p.node ∧ (applyEnv p a).Replies = p.Replies ∧
    (applyEnv p a).Count = p.Count := by
  unfold applyEnv
  cases a.act with
  | deliver msgs =>
    have h := deliverCount_frame p msgs
    exact ⟨h.1, h.2.1, h.2.2.1⟩
  | setTimeout d => simp [SetTimeout]
  | closeQuit => simp

theorem foldl_applyEnv_frame (env : List Timed) (p : ProtocolRum) :
    (env.foldl applyEnv p).node = p.node ∧ (env.foldl applyEnv p).Replies = p.Replies ∧
    (env.foldl applyEnv p).Count = p.Count := by
  induction env generalizing p with
  | nil => simp
  | cons a as ih =>
    have h := applyEnv_frame p a
    have h2 := ih (applyEnv p a)
    simp only [List.foldl_cons]
    exact ⟨h2.1.trans h.1, h2.2.1.trans h.2.1, h2.2.2.trans h.2.2⟩

/-! ## The loop on the root and on the other nodes -/

/-- On the root with `Count` open and not full, the first iteration ends the
loop. -/
theorem dispatchLoop_root (fuel : Nat) (r : Run) (env : List Timed)
    (hroot : r.p.node.isRoot = true) (hopen : r.p.Count.closed = false)
    (hfree : r.p.Count.buf.length < r.p.Count.cap) :
    ∃ r2, dispatchLoop (fuel + 1) r env = .returned r2 none ∧
      r2.now = r.now + max (Timeout r.p) 0 ∧
      r2.p.node = r.p.node ∧
      r2.p.Replies = r.p.Replies ∧
      r2.p.Count = { r.p.Count with buf := r.p.Count.buf ++ [r.p.Replies] } ∧
      r2.effects = r.effects ++
        [.log 3 "waiting for message for", .wait (Timeout r.p),
         .log 3 "timed out while waiting for", .log 2 "Didn't get all children in time:",
         .writeCount r.p.Replies] := by
  obtain ⟨hn, hr, hc⟩ := foldl_applyEnv_frame
    (env.filter (fun a => decide (a.time < r.now + max (Timeout r.p) 0))) r.p
  simp only [dispatchLoop, Run.emit, hn, hroot, if_true, Chan.send, hc, hopen, hfree, hr,
    Bool.false_eq_true, if_false]
  refine ⟨_, rfl, rfl, rfl, rfl, rfl, ?_⟩
  simp

theorem waits_append (a b : List Effect) : waits (a ++ b) = waits a ++ waits b := by
  induction a with
  | nil => rfl
  | cons e es ih => cases e <;> simp [waits, ih]

theorem countWrites_append (a b : List Effect) :
    countWrites (a ++ b) = countWrites a ++ countWrites b := by
  induction a with
  | nil => rfl
  | cons e es ih => cases e <;> simp [countWrites, ih]

theorem rumorsSent_append (a b : List Effect) :
    rumorsSent (a ++ b) = rumorsSent a ++ rumorsSent b := by
  induction a with
  | nil => rfl
  | cons e es ih => cases e <;> simp [rumorsSent, ih]

/-- On a node that is not the root, every iteration is followed by the next:
whatever the fuel, the loop is still running, one timer per unit of fuel has
fired, and nothing was sent on `Count`. -/
theorem dispatchLoop_nonroot (fuel : Nat) (r : Run) (env : List Timed)
    (hroot : r.p.node.isRoot = false) :
    ∃ r2, dispatchLoop fuel r env = .looping r2 ∧
      r2.p.node = r.p.node ∧ r2.p.Replies = r.p.Replies ∧ r2.p.Count = r.p.Count ∧
      (waits r2.effects).length = (waits r.effects).length + fuel ∧
      countWrites r2.effects = countWrites r.effects ∧
      rumorsSent r2.effects = rumorsSent r.effects ∧
      (Effect.done ∈ r2.effects ↔ Effect.done ∈ r.effects) := by
  induction fuel generalizing r env with
  | zero => exact ⟨r, rfl, rfl, rfl, rfl, rfl, rfl, rfl, Iff.rfl⟩
  | succ k ih =>
    obtain ⟨hn, hr, hc⟩ := foldl_applyEnv_frame
      (env.filter (fun a => decide (a.time < r.now + max (Timeout r.p) 0))) r.p
    simp only [dispatchLoop, Run.emit, hn, hroot]
    obtain ⟨r2, h1, h2, h3, h4, h5, h6, h7, h8⟩ := ih
      { p := (env.filter (fun a => decide (a.time < r.now + max (Timeout r.p) 0))).foldl applyEnv r.p
        now := r.now + max (Timeout r.p) 0
        effects := r.effects ++ [.log 3 "waiting for message for"] ++ [.wait (Timeout r.p)] ++
          [.log 3 "timed out while waiting for"] }
      (env.filter (fun a => !decide (a.time < r.now + max (Timeout r.p) 0)))
      (by simp only [hn, hroot])
    refine ⟨r2, ?_, h2.trans hn, h3.trans hr, h4.trans hc, ?_, ?_, ?_, ?_⟩
    · simpa using h1
    · rw [h5]; simp [waits_append, waits]; omega
    · rw [h6]; simp [countWrites_append, countWrites]
    · rw [h7]; simp [rumorsSent_append, rumorsSent]
    · rw [h8]; simp

/-- What `SendMyRumor` does on the root. -/
theorem SendMyRumor_root (r : Run) (hroot : r.p.node.isRoot = true) :
    (SendMyRumor r).p = r.p ∧ (SendMyRumor r).now = r.now ∧
    rumorsSent (SendMyRumor r).effects = rumorsSent r.effects ++ [(2, { Children := 1 })] ∧
    waits (SendMyRumor r).effects = waits r.effects ∧
    countWrites (SendMyRumor r).effects = countWrites r.effects ∧
    (Effect.done ∈ (SendMyRumor r).effects ↔ Effect.done ∈ r.effects) := by
  unfold SendMyRumor
  simp only [hroot, if_true, Run.emit]
  split <;> simp [rumorsSent_append, rumorsSent, waits_append, waits, countWrites_append, countWrites]

/-- What `SendMyRumor` does on a node that is not the root: nothing. -/
theorem SendMyRumor_nonroot (r : Run) (hroot : r.p.node.isRoot = false) :
    SendMyRumor r = r := by
  simp [SendMyRumor, hroot]

/-- A call of `Dispatch` on the root with `Count` open and not full: it
returns nil after one timer of `Timeout()`, having sent `Replies` on `Count`
once, right before `Done`. -/
theorem Dispatch_root (fuel : Nat) (p : ProtocolRum) (t0 : Int) (env : List Timed)
    (hroot : p.node.isRoot = true) (hopen : p.Count.closed = false)
    (hfree : p.Count.buf.length < p.Count.cap) :
    ∃ r pre, Dispatch (fuel + 1) p t0 env = .returned r none ∧
      r.now = t0 + max (Timeout p) 0 ∧
      r.p.node = p.node ∧
      r.p.Replies = p.Replies ∧
      r.p.Count = { p.Count with buf := p.Count.buf ++ [p.Replies] } ∧
      r.effects = pre ++ [.writeCount p.Replies, .done] ∧
      rumorsSent pre = [(2, { Children := 1 })] ∧
      waits pre = [Timeout p] ∧
      countWrites pre = [] ∧
      Effect.done ∉ pre := by
  obtain ⟨hp, hnow, hs, hw, hcw, hd⟩ := SendMyRumor_root { p := p, now := t0, effects := [] } hroot
  simp only at hp hnow
  obtain ⟨r2, h1, h2, h3, h4, h5, h6⟩ := dispatchLoop_root fuel
    (SendMyRumor { p := p, now := t0, effects := [] }) env (by rw [hp]; exact hroot)
    (by rw [hp]; exact hopen) (by rw [hp]; exact hfree)
  rw [hp] at h2 h3 h4 h5 h6
  rw [hnow] at h2
  refine ⟨r2.emit .done, (SendMyRumor { p := p, now := t0, effects := [] }).effects ++
    [.log 3 "waiting for message for", .wait (Timeout p),
     .log 3 "timed out while waiting for", .log 2 "Didn't get all children in time:"],
    ?_, h2, h3, h4, h5, ?_, ?_, ?_, ?_, ?_⟩
  · simp only [Dispatch, h1]
  · simp [Run.emit, h6]
  · simp [rumorsSent_append, hs, rumorsSent]
  · simp [waits_append, hw, waits]
  · simp [countWrites_append, hcw, countWrites]
  · simp [hd]

/-- A call of `Dispatch` on a node that is not the root: whatever the fuel,
the loop is still running. -/
theorem Dispatch_nonroot (fuel : Nat) (p : ProtocolRum) (t0 : Int) (env : List Timed)
    (hroot : p.node.isRoot = false) :
    ∃ r, Dispatch fuel p t0 env = .looping r ∧
      r.p.node = p.node ∧ r.p.Replies = p.Replies ∧ r.p.Count = p.Count ∧
      (waits r.effects).length = fuel ∧
      countWrites r.effects = [] ∧
      rumorsSent r.effects = [] ∧
      Effect.done ∉ r.effects := by
  obtain ⟨r2, h1, h2, h3, h4, h5, h6, h7, h8⟩ :=
    dispatchLoop_nonroot fuel { p := p, now := t0, effects := [] } env hroot
  refine ⟨r2, ?_, h2, h3, h4, ?_, ?_, ?_, ?_⟩
  · have hs : SendMyRumor { p := p, now := t0, effects := [] } = { p := p, now := t0, effects := [] } :=
      SendMyRumor_nonroot _ hroot
    simp only [Dispatch, hs, h1]
  · simpa [waits] using h5
  · simpa [countWrites] using h6
  · simpa [rumorsSent] using h7
  · simpa using h8

/-- On the root with `Count` closed, the send panics when the first timer
fires: the loop is left by the panic, with nothing sent on `Count`. -/
theorem dispatchLoop_root_closed (fuel : Nat) (r : Run) (env : List Timed)
    (hroot : r.p.node.isRoot = true) (hclosed : r.p.Count.closed = true) :
    ∃ r2, dispatchLoop (fuel + 1) r env = .panicked r2 ∧ r2.p.Count = r.p.Count ∧
      countWrites r2.effects = countWrites r.effects := by
  obtain ⟨hn, hr, hc⟩ := foldl_applyEnv_frame
    (env.filter (fun a => decide (a.time < r.now + max (Timeout r.p) 0))) r.p
  simp only [dispatchLoop, Run.emit, hn, hroot, if_true, Chan.send, hc, hclosed]
  refine ⟨_, rfl, hc, ?_⟩
  simp [countWrites_append, countWrites]

/-- A call of `Dispatch` on the root with `Count` closed panics: it does not
return, and nothing is sent on `Count`. -/
theorem Dispatch_root_closed (fuel : Nat) (p : ProtocolRum) (t0 : Int) (env : List Timed)
    (hroot : p.node.isRoot = true) (hclosed : p.Count.closed = true) :
    ∃ r, Dispatch (fuel + 1) p t0 env = .panicked r ∧ r.p.Count = p.Count ∧
      countWrites r.effects = [] := by
  obtain ⟨hp, _, _, _, hcw, _⟩ := SendMyRumor_root { p := p, now := t0, effects := [] } hroot
  simp only at hp
  obtain ⟨r2, h1, h2, h3⟩ := dispatchLoop_root_closed fuel
    (SendMyRumor { p := p, now := t0, effects := [] }) env (by rw [hp]; exact hroot)
    (by rw [hp]; exact hclosed)
  refine ⟨r2, by simp only [Dispatch, h1], by rw [h2, hp], ?_⟩
  rw [h3, hcw]; rfl

/-! ## The timeout an iteration reads -/

/-- An action that is no call of `SetTimeout` leaves the timeout as it is. -/
theorem applyEnv_timeout (p : ProtocolRum) (a : Timed) (h : a.setsTimeout = false) :
    (applyEnv p a).timeout = p.timeout := by
  unfold Timed.setsTimeout at h
  unfold applyEnv
  cases ha : a.act with
  | deliver msgs => exact (deliverCount_frame p msgs).2.2.2
  | setTimeout d => simp [ha] at h
  | closeQuit => rfl

theorem foldl_applyEnv_timeout (post : List Timed) (p : ProtocolRum)
    (h : ∀ a ∈ post, a.setsTimeout = false) :
    (post.foldl applyEnv p).timeout = p.timeout := by
  induction post generalizing p with
  | nil => rfl
  | cons a as ih =>
    simp only [List.foldl_cons]
    rw [ih (applyEnv p a) (fun b hb => h b (List.mem_cons_of_mem a hb))]
    exact applyEnv_timeout p a (h a (List.mem_cons_self a as))

/-- After a sequence of actions the timeout is the one of the last call of
`SetTimeout` among them. -/
theorem foldl_applyEnv_last_setTimeout (pre post : List Timed) (t : Int) (d : Duration)
    (p : ProtocolRum) (h : ∀ a ∈ post, a.setsTimeout = false) :
    Timeout ((pre ++ ⟨t, .setTimeout d⟩ :: post).foldl applyEnv p) = d := by
  unfold Timeout
  rw [List.foldl_append, List.foldl_cons, foldl_applyEnv_timeout post _ h]
  rfl

/-- On a node that is not the root, an iteration of the loop is followed by
the rest of the loop, from the run in which its timer fired. -/
theorem dispatchLoop_succ_nonroot (fuel : Nat) (r : Run) (env : List Timed)
    (hroot : r.p.node.isRoot = false) :
    dispatchLoop (fuel + 1) r env = dispatchLoop fuel (awaitTimer r env) (afterWait r env) := by
  obtain ⟨hn, _, _⟩ := foldl_applyEnv_frame
    (env.filter (fun a => decide (a.time < r.now + max (Timeout r.p) 0))) r.p
  simp [dispatchLoop, Run.emit, hn, hroot, awaitTimer, afterWait, duringWait]

/-- The run in which the timer of an iteration fired: the instance but for
the actions of the environment, and one more timer, of `Timeout()`. -/
theorem awaitTimer_frame (r : Run) (env : List Timed) :
    (awaitTimer r env).p.node = r.p.node ∧ (awaitTimer r env).p.Replies = r.p.Replies ∧
    (awaitTimer r env).p.Count = r.p.Count ∧
    waits (awaitTimer r env).effects = waits r.effects ++ [Timeout r.p] ∧
    countWrites (awaitTimer r env).effects = countWrites r.effects := by
  obtain ⟨hn, hr, hc⟩ := foldl_applyEnv_frame (duringWait r env) r.p
  refine ⟨hn, hr, hc, ?_, ?_⟩
  · simp [awaitTimer, waits_append, waits]
  · simp [awaitTimer, countWrites_append, countWrites]

/-- On a node that is not the root the loop arms one timer per unit of fuel,
after those armed before, and leaves `Replies` and `Count` as they are. -/
theorem dispatchLoop_nonroot_waits (fuel : Nat) (r : Run) (env : List Timed)
    (hroot : r.p.node.isRoot = false) :
    ∃ r2 rest, dispatchLoop fuel r env = .looping r2 ∧
      waits r2.effects = waits r.effects ++ rest ∧ rest.length = fuel ∧
      r2.p.Replies = r.p.Replies ∧ r2.p.Count = r.p.Count ∧
      countWrites r2.effects = countWrites r.effects := by
  induction fuel generalizing r env with
  | zero => exact ⟨r, [], rfl, by simp, rfl, rfl, rfl, rfl⟩
  | succ k ih =>
    obtain ⟨hn, hr, hc, hw, hcw⟩ := awaitTimer_frame r env
    obtain ⟨r2, rest, h1, h2, h3, h4, h5, h6⟩ :=
      ih (awaitTimer r env) (afterWait r env) (by rw [hn]; exact hroot)
    refine ⟨r2, Timeout r.p :: rest, ?_, ?_, ?_, h4.trans hr, h5.trans hc, h6.trans hcw⟩
    · rw [dispatchLoop_succ_nonroot k r env hroot, h1]
    · rw [h2, hw]; simp
    · simp [h3]

/-- On the root with `Count` open and not full, the instance the loop leaves
is the one the environment made during the wait, with `Replies` in `Count`. -/
theorem dispatchLoop_root_instance (fuel : Nat) (r : Run) (env : List Timed)
    (hroot : r.p.node.isRoot = true) (hopen : r.p.Count.closed = false)
    (hfree : r.p.Count.buf.length < r.p.Count.cap) :
    ∃ r2, dispatchLoop (fuel + 1) r env = .returned r2 none ∧
      r2.p = { (duringWait r env).foldl applyEnv r.p with
        Count := { r.p.Count with buf := r.p.Count.buf ++ [r.p.Replies] } } := by
  obtain ⟨hn, hr, hc⟩ := foldl_applyEnv_frame
    (env.filter (fun a => decide (a.time < r.now + max (Timeout r.p) 0))) r.p
  simp only [dispatchLoop, Run.emit, hn, hroot, if_true, Chan.send, hc, hopen, hfree, hr,
    Bool.false_eq_true, if_false, duringWait]
  exact ⟨_, rfl, rfl⟩

/-- A call of `Dispatch` on the root with `Count` open and not full leaves
the instance the environment made during the one wait, with `Replies` in
`Count`. -/
theorem Dispatch_root_instance (fuel : Nat) (p : ProtocolRum) (t0 : Int) (env : List Timed)
    (hroot : p.node.isRoot = true) (hopen : p.Count.closed = false)
    (hfree : p.Count.buf.length < p.Count.cap) :
    ∃ r, Dispatch (fuel + 1) p t0 env = .returned r none ∧
      r.p = { (duringWait { p := p, now := t0, effects := [] } env).foldl applyEnv p with
        Count := { p.Count with buf := p.Count.buf ++ [p.Replies] } } := by
  obtain ⟨hp, hnow, _⟩ := SendMyRumor_root { p := p, now := t0, effects := [] } hroot
  simp only at hp hnow
  obtain ⟨r2, h1, h2⟩ := dispatchLoop_root_instance fuel
    (SendMyRumor { p := p, now := t0, effects := [] }) env (by rw [hp]; exact hroot)
    (by rw [hp]; exact hopen) (by rw [hp]; exact hfree)
  refine ⟨r2.emit .done, by simp only [Dispatch, h1], ?_⟩
  simp only [Run.emit, h2, duringWait, hp, hnow]

/-! ## The constructor -/

/-- C4: `NewRumorSim` returns the error and no instance when the tree of the
handle is nil, and an instance on that handle with no error when the tree is
not nil, whether or not the registration of the channel succeeds. -/
theorem NewRumorSim_error_iff_tree_nil (n : TreeNodeInstance) :
    (n.tree = none → NewRumorSim n = .error "cannot find tree") ∧
    (n.tree ≠ none → ∃ p, NewRumorSim n = .ok p ∧ p.node = n) := by
  constructor
  · intro h
    simp [NewRumorSim, h]
  · intro h
    cases ht : n.tree with
    | none => exact absurd ht h
    | some t =>
      cases hr : n.registerErr with
      | none => exact ⟨_, by simp only [NewRumorSim, ht, hr]; rfl, rfl⟩
      | some e => exact ⟨_, by simp only [NewRumorSim, ht, hr]; rfl, rfl⟩

/-- Witness of C4: the handle without tree and the root of the example tree. -/
theorem NewRumorSim_error_iff_tree_nil_witness :
    (treelessNode.tree = none ∧ NewRumorSim treelessNode = .error "cannot find tree") ∧
    (exampleRoot.tree ≠ none ∧ ∃ p, NewRumorSim exampleRoot = .ok p ∧ p.node = exampleRoot) :=
  ⟨⟨rfl, (NewRumorSim_error_iff_tree_nil treelessNode).1 rfl⟩,
   ⟨by simp [exampleRoot], (NewRumorSim_error_iff_tree_nil exampleRoot).2 (by simp [exampleRoot])⟩⟩

/-! ## The timeout accessors -/

/-- C8: `Timeout` after `SetTimeout d` returns `d`; after a sequence of calls
of `SetTimeout` it returns the last value set; on a freshly constructed
instance it returns 5 seconds, which is 5000000000 nanoseconds. -/
theorem Timeout_SetTimeout_roundtrip (p : ProtocolRum) (d : Duration) (ds : List Duration) :
    Timeout (SetTimeout p d) = d ∧
    Timeout ((ds ++ [d]).foldl SetTimeout p) = d ∧
    (∀ n q, NewRumorSim n = .ok q → Timeout q = 5 * Second ∧ Timeout q = 5000000000) := by
  refine ⟨rfl, ?_, ?_⟩
  · simp [List.foldl_append, Timeout, SetTimeout]
  · intro n q h
    unfold NewRumorSim at h
    cases ht : n.tree with
    | none => simp [ht] at h
    | some t =>
      cases hr : n.registerErr with
      | none =>
        simp only [ht, hr, Except.ok.injEq] at h
        subst h
        exact ⟨rfl, by simp [Timeout, Second]⟩
      | some e =>
        simp only [ht, hr, Except.ok.injEq] at h
        subst h
        exact ⟨rfl, by simp [Timeout, Second]⟩

/-- Witness of C8: the instance freshly constructed on the example root. -/
theorem Timeout_SetTimeout_roundtrip_witness :
    NewRumorSim exampleRoot = .ok exampleInstance ∧
    Timeout exampleInstance = 5 * Second ∧ Timeout exampleInstance = 5000000000 :=
  ⟨rfl, (Timeout_SetTimeout_roundtrip exampleInstance 7 [3, 4]).2.2 exampleRoot exampleInstance rfl⟩

/-- C9: a call `SetTimeout d` changes no field but `timeout`. In a run of
the loop of `Dispatch`, from any iteration on, with any fuel and any
environment in which `SetTimeout d` is the last call of `SetTimeout` during
the wait of that iteration: the timer that is running keeps its duration,
the next iteration waits for `d`, and `Replies` and `Count` are as before.
That is the loop of a node that is not the root, where `Dispatch` is that
loop. On the root, with `Count` open and not full, the loop has that one
iteration: the timer keeps its duration, the value sent on `Count` is still
`Replies`, and the instance keeps `d` as its timeout. -/
theorem SetTimeout_during_wait (p : ProtocolRum) (d : Duration) (r : Run) (t0 t : Int)
    (fuel : Nat) (env pre post : List Timed) :
    ((SetTimeout p d).node = p.node ∧ (SetTimeout p d).Replies = p.Replies ∧
      (SetTimeout p d).Count = p.Count ∧ (SetTimeout p d).Quit = p.Quit ∧
      (SetTimeout p d).PrepareCountChan = p.PrepareCountChan ∧
      (SetTimeout p d).CountChan = p.CountChan ∧
      (SetTimeout p d).NodeIsUpChan = p.NodeIsUpChan ∧
      Timeout (SetTimeout p d) = d) ∧
    (p.node.isRoot = false →
      Dispatch fuel p t0 env = dispatchLoop fuel { p := p, now := t0, effects := [] } env) ∧
    (r.p.node.isRoot = false →
      duringWait r env = pre ++ ⟨t, .setTimeout d⟩ :: post →
      (∀ a ∈ post, a.setsTimeout = false) →
      ∃ r2 rest, dispatchLoop (fuel + 2) r env = .looping r2 ∧
        waits r2.effects = waits r.effects ++ Timeout r.p :: d :: rest ∧
        rest.length = fuel ∧
        r2.p.Replies = r.p.Replies ∧ r2.p.Count = r.p.Count ∧
        countWrites r2.effects = countWrites r.effects) ∧
    (p.node.isRoot = true → p.Count.closed = false → p.Count.buf.length < p.Count.cap →
      duringWait { p := p, now := t0, effects := [] } env = pre ++ ⟨t, .setTimeout d⟩ :: post →
      (∀ a ∈ post, a.setsTimeout = false) →
      ∃ r2, Dispatch (fuel + 1) p t0 env = .returned r2 none ∧
        waits r2.effects = [Timeout p] ∧ countWrites r2.effects = [p.Replies] ∧
        r2.p.Replies = p.Replies ∧ Timeout r2.p = d) := by
  refine ⟨⟨rfl, rfl, rfl, rfl, rfl, rfl, rfl, rfl⟩, ?_, ?_, ?_⟩
  · intro hroot
    obtain ⟨r2, h1, _⟩ := dispatchLoop_nonroot fuel { p := p, now := t0, effects := [] } env hroot
    have hs : SendMyRumor { p := p, now := t0, effects := [] } = { p := p, now := t0, effects := [] } :=
      SendMyRumor_nonroot _ hroot
    simp only [Dispatch, hs, h1]
  · intro hroot hduring hpost
    obtain ⟨hn, hr, hc, hw, hcw⟩ := awaitTimer_frame r env
    have hroot1 : (awaitTimer r env).p.node.isRoot = false := by rw [hn]; exact hroot
    have hd : Timeout (awaitTimer r env).p = d := by
      show Timeout ((duringWait r env).foldl applyEnv r.p) = d
      rw [hduring]
      exact foldl_applyEnv_last_setTimeout pre post t d r.p hpost
    obtain ⟨r2, rest, h1, h2, h3, h4, h5, h6⟩ :=
      dispatchLoop_nonroot_waits (fuel + 1) (awaitTimer r env) (afterWait r env) hroot1
    obtain ⟨hn2, _, _, hw2, _⟩ := awaitTimer_frame (awaitTimer r env) (afterWait r env)
    obtain ⟨r3, rest3, g1, g2, g3, _⟩ :=
      dispatchLoop_nonroot_waits fuel (awaitTimer (awaitTimer r env) (afterWait r env))
        (afterWait (awaitTimer r env) (afterWait r env)) (by rw [hn2]; exact hroot1)
    have hsame : r3 = r2 := by
      rw [dispatchLoop_succ_nonroot fuel _ _ hroot1, g1] at h1
      exact Outcome.looping.inj h1
    subst hsame
    refine ⟨r3, rest3, ?_, ?_, g3, h4.trans hr, h5.trans hc, h6.trans hcw⟩
    · rw [dispatchLoop_succ_nonroot (fuel + 1) r env hroot, h1]
    · rw [g2, hw2, hw, hd]; simp
  · intro hroot hopen hfree hduring hpost
    obtain ⟨r2, pre2, h1, _, _, h4, _, h6, _, h8, h9, _⟩ :=
      Dispatch_root fuel p t0 env hroot hopen hfree
    obtain ⟨r3, g1, g2⟩ := Dispatch_root_instance fuel p t0 env hroot hopen hfree
    have hsame : r3 = r2 := by
      rw [g1] at h1
      exact (Outcome.returned.inj h1).1
    subst hsame
    refine ⟨r3, h1, ?_, ?_, h4, ?_⟩
    · rw [h6, waits_append, h8]; simp [waits]
    · rw [h6, countWrites_append, h9]; simp [countWrites]
    · rw [g2, hduring]
      exact foldl_applyEnv_last_setTimeout pre post t d p hpost

/-- Witness of C9: node C and the root of the example tree under `busyEnv`;
the timeout of 5 seconds is set to 2 seconds one second after the start. -/
theorem SetTimeout_during_wait_witness :
    (exampleLeafInstance.node.isRoot = false ∧
      duringWait { p := exampleLeafInstance, now := 0, effects := [] } busyEnv =
        [⟨500 * Millisecond, .deliver [⟨3, ⟨1⟩⟩]⟩] ++
          ⟨1 * Second, .setTimeout (2 * Second)⟩ :: [⟨3 * Second, .closeQuit⟩] ∧
      (∀ a ∈ [(⟨3 * Second, .closeQuit⟩ : Timed)], a.setsTimeout = false) ∧
      Dispatch 5 exampleLeafInstance 0 busyEnv =
        dispatchLoop 5 { p := exampleLeafInstance, now := 0, effects := [] } busyEnv ∧
      ∃ r2 rest,
        dispatchLoop (3 + 2) { p := exampleLeafInstance, now := 0, effects := [] } busyEnv =
          .looping r2 ∧
        waits r2.effects = waits [] ++ Timeout exampleLeafInstance :: 2 * Second :: rest ∧
        rest.length = 3 ∧
        r2.p.Replies = exampleLeafInstance.Replies ∧ r2.p.Count = exampleLeafInstance.Count ∧
        countWrites r2.effects = countWrites []) ∧
    (exampleInstance.node.isRoot = true ∧ exampleInstance.Count.closed = false ∧
      exampleInstance.Count.buf.length < exampleInstance.Count.cap ∧
      duringWait { p := exampleInstance, now := 0, effects := [] } busyEnv =
        [⟨500 * Millisecond, .deliver [⟨3, ⟨1⟩⟩]⟩] ++
          ⟨1 * Second, .setTimeout (2 * Second)⟩ :: [⟨3 * Second, .closeQuit⟩] ∧
      ∃ r2, Dispatch (0 + 1) exampleInstance 0 busyEnv = .returned r2 none ∧
        waits r2.effects = [Timeout exampleInstance] ∧
        countWrites r2.effects = [exampleInstance.Replies] ∧
        r2.p.Replies = exampleInstance.Replies ∧ Timeout r2.p = 2 * Second) :=
  ⟨⟨rfl, rfl, by decide,
    (SetTimeout_during_wait exampleLeafInstance (2 * Second)
      { p := exampleLeafInstance, now := 0, effects := [] } 0 (1 * Second) 5 busyEnv
      [⟨500 * Millisecond, .deliver [⟨3, ⟨1⟩⟩]⟩] [⟨3 * Second, .closeQuit⟩]).2.1 rfl,
    (SetTimeout_during_wait exampleLeafInstance (2 * Second)
      { p := exampleLeafInstance, now := 0, effects := [] } 0 (1 * Second) 3 busyEnv
      [⟨500 * Millisecond, .deliver [⟨3, ⟨1⟩⟩]⟩] [⟨3 * Second, .closeQuit⟩]).2.2.1
      rfl rfl (by decide)⟩,
   ⟨rfl, rfl, by decide, rfl,
    (SetTimeout_during_wait exampleInstance (2 * Second)
      { p := exampleInstance, now := 0, effects := [] } 0 (1 * Second) 0 busyEnv
      [⟨500 * Millisecond, .deliver [⟨3, ⟨1⟩⟩]⟩] [⟨3 * Second, .closeQuit⟩]).2.2.2
      rfl rfl (by decide) rfl (by decide)⟩⟩

/-! ## Runs on the root -/

/-- A freshly constructed instance has room in `Count`, no reply and the
timeout of 5 seconds. -/
theorem NewRumorSim_fresh (n : TreeNodeInstance) (p : ProtocolRum) (h : NewRumorSim n = .ok p) :
    p.node = n ∧ p.Replies = 0 ∧ p.Count = Chan.make 1 ∧ p.timeout = 5 * Second := by
  unfold NewRumorSim at h
  cases ht : n.tree with
  | none => simp [ht] at h
  | some t =>
    cases hr : n.registerErr with
    | none =>
      simp only [ht, hr, Except.ok.injEq] at h
      subst h
      exact ⟨rfl, rfl, rfl, rfl⟩
    | some e =>
      simp only [ht, hr, Except.ok.injEq] at h
      subst h
      exact ⟨rfl, rfl, rfl, rfl⟩

/-- C2: on a tree of the root alone, `Dispatch` on the freshly constructed
root instance returns when its first timer fires, after one wait of
`Timeout()`, which is 5 seconds, and the value sent on `Count` is 0, the
number of nodes of that tree besides the root. -/
theorem single_node_root_run (n : TreeNodeInstance) (p : ProtocolRum) (id : Nat) (t0 : Int)
    (fuel : Nat) (env : List Timed)
    (htree : n.tree = some ⟨.mk id []⟩) (hroot : n.isRoot = true)
    (hnew : NewRumorSim n = .ok p) :
    ∃ r, Dispatch (fuel + 1) p t0 env = .returned r none ∧
      waits r.effects = [Timeout p] ∧
      r.now = t0 + Timeout p ∧
      Timeout p = 5 * Second ∧
      countWrites r.effects = [0] ∧
      r.p.Count.buf = [0] ∧
      ∃ t, n.tree = some t ∧ countWrites r.effects = [(t.nonRootNodes : Int)] := by
  obtain ⟨hn, hr, hc, ht⟩ := NewRumorSim_fresh n p hnew
  obtain ⟨r, pre, h1, h2, _, _, h5, h6, _, h8, h9, _⟩ :=
    Dispatch_root fuel p t0 env (by rw [hn]; exact hroot) (by rw [hc]; rfl) (by rw [hc]; decide)
  have hT : Timeout p = 5 * Second := ht
  have hcw : countWrites r.effects = [0] := by
    rw [h6, countWrites_append, h9, hr]; simp [countWrites]
  refine ⟨r, h1, ?_, ?_, hT, hcw, ?_, _, htree, ?_⟩
  · rw [h6, waits_append, h8]; simp [waits]
  · rw [h2, hT, max_eq_left (by decide : (0 : Int) ≤ 5 * Second)]
  · rw [h5, hc, hr]; rfl
  · rw [hcw]; simp [Tree.nonRootNodes, Tree.List, TreeNode.ids, TreeNode.idsOfAll]

/-- Witness of C2: the root of a tree of one node, started at time 0. -/
theorem single_node_root_run_witness :
    loneRoot.tree = some ⟨.mk 0 []⟩ ∧ loneRoot.isRoot = true ∧
    NewRumorSim loneRoot = .ok { exampleInstance with node := loneRoot, CountChan := some (Chan.make 1) } ∧
    ∃ r, Dispatch 1 { exampleInstance with node := loneRoot, CountChan := some (Chan.make 1) } 0 [] =
        .returned r none ∧
      waits r.effects = [Timeout { exampleInstance with node := loneRoot, CountChan := some (Chan.make 1) }] ∧
      r.now = 0 + Timeout { exampleInstance with node := loneRoot, CountChan := some (Chan.make 1) } ∧
      Timeout { exampleInstance with node := loneRoot, CountChan := some (Chan.make 1) } = 5 * Second ∧
      countWrites r.effects = [0] ∧
      r.p.Count.buf = [0] ∧
      ∃ t, loneRoot.tree = some t ∧ countWrites r.effects = [(t.nonRootNodes : Int)] :=
  ⟨rfl, rfl, rfl, single_node_root_run loneRoot _ 0 0 0 [] rfl rfl rfl⟩

/-- C5: in a run of `Dispatch` on the root, started with `Count` open and
not full as after `NewRumorSim`, exactly one value is sent on `Count`: the value of
`Replies`, which no action of the environment changes. The send is the last
thing before `Done` and the return; before it, and so as long as the loop
runs, nothing is sent on `Count`. -/
theorem root_writes_count_once (p : ProtocolRum) (t0 : Int) (fuel : Nat) (env : List Timed)
    (hroot : p.node.isRoot = true) (hopen : p.Count.closed = false)
    (hfree : p.Count.buf.length < p.Count.cap) :
    ∃ r pre, Dispatch (fuel + 1) p t0 env = .returned r none ∧
      countWrites r.effects = [r.p.Replies] ∧
      r.p.Replies = p.Replies ∧
      r.p.Count.buf = p.Count.buf ++ [p.Replies] ∧
      r.effects = pre ++ [.writeCount p.Replies, .done] ∧
      countWrites pre = [] ∧
      ∃ r0, Dispatch 0 p t0 env = .looping r0 ∧ countWrites r0.effects = [] ∧ r0.p.Count = p.Count := by
  obtain ⟨r, pre, h1, _, _, h4, h5, h6, _, _, h9, _⟩ := Dispatch_root fuel p t0 env hroot hopen hfree
  obtain ⟨_, _, _, _, hcw, _⟩ := SendMyRumor_root { p := p, now := t0, effects := [] } hroot
  obtain ⟨hp, _⟩ := SendMyRumor_root { p := p, now := t0, effects := [] } hroot
  refine ⟨r, pre, h1, ?_, h4, ?_, h6, h9, SendMyRumor { p := p, now := t0, effects := [] }, rfl, ?_, ?_⟩
  · rw [h6, countWrites_append, h9, h4]; simp [countWrites]
  · rw [h5]
  · simpa [countWrites] using hcw
  · rw [hp]

/-- Witness of C5: the freshly constructed root of the example tree, with the
reports of A, B and C delivered. -/
theorem root_writes_count_once_witness :
    exampleInstance.node.isRoot = true ∧
    exampleInstance.Count.closed = false ∧
    exampleInstance.Count.buf.length < exampleInstance.Count.cap ∧
    ∃ r pre, Dispatch 1 exampleInstance 0 exampleReports = .returned r none ∧
      countWrites r.effects = [r.p.Replies] ∧
      r.p.Replies = exampleInstance.Replies ∧
      r.p.Count.buf = exampleInstance.Count.buf ++ [exampleInstance.Replies] ∧
      r.effects = pre ++ [.writeCount exampleInstance.Replies, .done] ∧
      countWrites pre = [] ∧
      ∃ r0, Dispatch 0 exampleInstance 0 exampleReports = .looping r0 ∧
        countWrites r0.effects = [] ∧ r0.p.Count = exampleInstance.Count :=
  ⟨rfl, rfl, by decide,
   root_writes_count_once exampleInstance 0 0 exampleReports rfl rfl (by decide)⟩

/-- C7: when `SendRumor` returns an error on the root, with `Count` open and
not full as after `NewRumorSim`, `Dispatch` still arms its timer, returns
nil when the timer fires, and sends on `Count` the same value at the same
time as when `SendRumor` returns nil. -/
theorem spreader_failure_not_fatal (p : ProtocolRum) (t0 : Int) (fuel : Nat) (env : List Timed)
    (e : String) (hroot : p.node.isRoot = true) (hopen : p.Count.closed = false)
    (hfree : p.Count.buf.length < p.Count.cap) :
    ∃ rf ro,
      Dispatch (fuel + 1) { p with node := { p.node with sendRumorErr := some e } } t0 env =
        .returned rf none ∧
      Dispatch (fuel + 1) { p with node := { p.node with sendRumorErr := none } } t0 env =
        .returned ro none ∧
      waits rf.effects = [Timeout p] ∧ waits ro.effects = [Timeout p] ∧
      rf.now = ro.now ∧
      countWrites rf.effects = [p.Replies] ∧ countWrites ro.effects = [p.Replies] ∧
      rf.p.Count = ro.p.Count ∧ rf.p.Replies = ro.p.Replies := by
  obtain ⟨rf, pf, f1, f2, _, f4, f5, f6, _, f8, f9, _⟩ :=
    Dispatch_root fuel { p with node := { p.node with sendRumorErr := some e } } t0 env hroot hopen hfree
  obtain ⟨ro, po, o1, o2, _, o4, o5, o6, _, o8, o9, _⟩ :=
    Dispatch_root fuel { p with node := { p.node with sendRumorErr := none } } t0 env hroot hopen hfree
  refine ⟨rf, ro, f1, o1, ?_, ?_, ?_, ?_, ?_, ?_, ?_⟩
  · rw [f6, waits_append, f8]; simp [waits, Timeout]
  · rw [o6, waits_append, o8]; simp [waits, Timeout]
  · rw [f2, o2]; rfl
  · rw [f6, countWrites_append, f9]; simp [countWrites]
  · rw [o6, countWrites_append, o9]; simp [countWrites]
  · rw [f5, o5]
  · rw [f4, o4]

/-- Witness of C7: the root of the example tree with a failing spreader. -/
theorem spreader_failure_not_fatal_witness :
    exampleInstance.node.isRoot = true ∧
    exampleInstance.Count.closed = false ∧
    exampleInstance.Count.buf.length < exampleInstance.Count.cap ∧
    ∃ rf ro,
      Dispatch 1 { exampleInstance with node := { exampleInstance.node with sendRumorErr := some "send failed" } }
        0 [] = .returned rf none ∧
      Dispatch 1 { exampleInstance with node := { exampleInstance.node with sendRumorErr := none } }
        0 [] = .returned ro none ∧
      waits rf.effects = [Timeout exampleInstance] ∧ waits ro.effects = [Timeout exampleInstance] ∧
      rf.now = ro.now ∧
      countWrites rf.effects = [exampleInstance.Replies] ∧
      countWrites ro.effects = [exampleInstance.Replies] ∧
      rf.p.Count = ro.p.Count ∧ rf.p.Replies = ro.p.Replies :=
  ⟨rfl, rfl, by decide,
   spreader_failure_not_fatal exampleInstance 0 0 [] "send failed" rfl rfl (by decide)⟩

/-! ## Runs on the other nodes -/

/-- C10: on a node that is not the root, `Dispatch` never leaves its loop:
after any number of timers fired the loop is still running, nothing was sent
on `Count`, `Done` was not called and the call has not returned, whatever
the environment does, the closing of `Quit` included. -/
theorem nonroot_never_leaves_loop (p : ProtocolRum) (t0 : Int) (fuel : Nat) (env : List Timed)
    (hroot : p.node.isRoot = false) :
    ∃ r, Dispatch fuel p t0 env = .looping r ∧
      (waits r.effects).length = fuel ∧
      countWrites r.effects = [] ∧
      r.p.Count = p.Count ∧
      Effect.done ∉ r.effects ∧
      (∀ r2 err, Dispatch fuel p t0 env ≠ .returned r2 err) := by
  obtain ⟨r, h1, _, _, h4, h5, h6, _, h8⟩ := Dispatch_nonroot fuel p t0 env hroot
  refine ⟨r, h1, h5, h6, h4, h8, ?_⟩
  intro r2 err h
  rw [h1] at h
  cases h

/-- Witness of C10: node C of the example tree after seven timers, with
`Quit` closed during the first wait. -/
theorem nonroot_never_leaves_loop_witness :
    exampleLeafInstance.node.isRoot = false ∧
    ∃ r, Dispatch 7 exampleLeafInstance 0 [⟨1 * Second, .closeQuit⟩] = .looping r ∧
      (waits r.effects).length = 7 ∧
      countWrites r.effects = [] ∧
      r.p.Count = exampleLeafInstance.Count ∧
      Effect.done ∉ r.effects ∧
      (∀ r2 err, Dispatch 7 exampleLeafInstance 0 [⟨1 * Second, .closeQuit⟩] ≠ .returned r2 err) :=
  ⟨rfl, nonroot_never_leaves_loop exampleLeafInstance 0 7 [⟨1 * Second, .closeQuit⟩] rfl⟩

/-! ## The first rumor -/

/-- C6, as stated, fails: `Start` on the root of the example tree hands
nothing to the spreader. -/
theorem Start_on_root_sends_nothing :
    exampleInstance.node.isRoot = true ∧
    rumorsSent (Start { p := exampleInstance, now := 0, effects := [] }).1.effects = [] ∧
    ¬ (2, ({ Children := 1 } : RumCount)) ∈
      rumorsSent (Start { p := exampleInstance, now := 0, effects := [] }).1.effects := by
  refine ⟨rfl, ?_, ?_⟩ <;> decide

/-- C6, amended: `Start` sends nothing, changes no state and returns nil on
every node, the root included. The first rumor, `RumCount` with `Children` 1,
is handed to the spreader with the fan-out 2 by `SendMyRumor`, on the root
only and with no change of the instance; `Dispatch` calls it once before its
loop, so that the one rumor is sent before the first timer is armed. -/
theorem Start_noop_rumor_sent_by_SendMyRumor (r : Run) (env : List Timed) :
    ((Start r).2 = none ∧ (Start r).1.p = r.p ∧ (Start r).1.now = r.now ∧
      rumorsSent (Start r).1.effects = rumorsSent r.effects) ∧
    (r.p.node.isRoot = true →
      (SendMyRumor r).p = r.p ∧
      rumorsSent (SendMyRumor r).effects = rumorsSent r.effects ++ [(2, { Children := 1 })] ∧
      ∃ r0, Dispatch 0 r.p r.now env = .looping r0 ∧
        rumorsSent r0.effects = [(2, { Children := 1 })] ∧ waits r0.effects = []) ∧
    (r.p.node.isRoot = false →
      SendMyRumor r = r ∧
      ∃ r0, Dispatch 0 r.p r.now env = .looping r0 ∧ rumorsSent r0.effects = []) := by
  refine ⟨⟨rfl, rfl, rfl, ?_⟩, ?_, ?_⟩
  · simp [Start, Run.emit, rumorsSent_append, rumorsSent]
  · intro hroot
    obtain ⟨hp, _, hs, _⟩ := SendMyRumor_root r hroot
    obtain ⟨_, _, hs0, hw0, _⟩ := SendMyRumor_root { p := r.p, now := r.now, effects := [] } hroot
    refine ⟨hp, hs, SendMyRumor { p := r.p, now := r.now, effects := [] }, rfl, ?_, ?_⟩
    · simpa [rumorsSent] using hs0
    · simpa [waits] using hw0
  · intro hroot
    have hs : SendMyRumor { p := r.p, now := r.now, effects := [] } =
        { p := r.p, now := r.now, effects := [] } := SendMyRumor_nonroot _ hroot
    refine ⟨SendMyRumor_nonroot r hroot, { p := r.p, now := r.now, effects := [] }, ?_, rfl⟩
    simp only [Dispatch, hs, dispatchLoop]

/-- Witness of C6, amended: the root and node C of the example tree. -/
theorem Start_noop_rumor_sent_by_SendMyRumor_witness :
    (exampleInstance.node.isRoot = true ∧
      ∃ r0, Dispatch 0 exampleInstance 0 [] = .looping r0 ∧
        rumorsSent r0.effects = [(2, { Children := 1 })] ∧ waits r0.effects = []) ∧
    (exampleLeafInstance.node.isRoot = false ∧
      ∃ r0, Dispatch 0 exampleLeafInstance 0 [] = .looping r0 ∧ rumorsSent r0.effects = []) :=
  ⟨⟨rfl, ((Start_noop_rumor_sent_by_SendMyRumor
      { p := exampleInstance, now := 0, effects := [] } []).2.1 rfl).2.2⟩,
   ⟨rfl, ((Start_noop_rumor_sent_by_SendMyRumor
      { p := exampleLeafInstance, now := 0, effects := [] } []).2.2 rfl).2⟩⟩

/-! ## Reports that reach the root -/

/-- C1, evaluated: on the tree root->(A, B), A->(C), which has three nodes
besides the root, with a timeout of 200 milliseconds and the reports of A, B
and C delivered to the root within 12 milliseconds, `Dispatch` leaves the
three reports in the buffer of `CountChan` and sends 0 on `Count`, when the
timer fires after 200 milliseconds. -/
theorem count_ignores_delivered_reports :
    exampleTree.nonRootNodes = 3 ∧
    ∃ p r, NewRumorSim exampleRoot = .ok p ∧
      Dispatch 1 (SetTimeout p (200 * Millisecond)) 0 exampleReports = .returned r none ∧
      r.p.CountChan.map (fun c => c.buf.length) = some 3 ∧
      r.p.Replies = 0 ∧
      r.p.Count.buf = [0] ∧
      countWrites r.effects = [0] ∧
      r.now = 200 * Millisecond := by
  refine ⟨by decide, _, _, rfl, rfl, ?_, ?_, ?_, ?_, ?_⟩ <;> decide

/-- C3, evaluated: the freshly constructed root of the example tree, with
its timeout of 5 seconds, receives a report every second from second 1 to
second 9. `Dispatch` returns at second 5, having sent 0 on `Count`, after
four reports and with five more to arrive. -/
theorem root_stops_while_reports_arrive :
    steadyReports.map (fun a => a.time) =
      [1 * Second, 2 * Second, 3 * Second, 4 * Second, 5 * Second,
       6 * Second, 7 * Second, 8 * Second, 9 * Second] ∧
    ∃ p r, NewRumorSim exampleRoot = .ok p ∧
      Timeout p = 5 * Second ∧
      Dispatch 1 p 0 steadyReports = .returned r none ∧
      r.now = 5 * Second ∧
      waits r.effects = [5 * Second] ∧
      countWrites r.effects = [0] ∧
      r.p.CountChan.map (fun c => c.buf.length) = some 4 ∧
      (steadyReports.filter (fun a => decide (r.now ≤ a.time))).length = 5 := by
  refine ⟨by decide, _, _, rfl, rfl, rfl, ?_, ?_, ?_, ?_, ?_⟩ <;> decide

end GossipSimul
